import Mathlib

/-!
Verification of the kernel-based negative samplers of `src/sampler/kernel.py`
(classes `KernelSampler`, `SphereSampler`, `RFFSampler`, `KernelSamplerAppr`,
`SphereSamplerAppr`, `RffSamplerAppr`).

The embedding works on flattened query batches: a batch of queries is a list
of rows (`List (List K)`); the leading batch dimensions of the original
tensors are flattened away, exactly as the Python code does with
`reshape(-1, N)` before sampling.  Randomness is made explicit: every random
primitive of torch is modelled as a deterministic function of an extra
random-source argument (`torch.multinomial` via inverse-CDF applied to a
supplied value in `[0, row-sum)`, `torch.randint(0, n)` via a supplied
natural number reduced mod `n`, `torch.normal(0, sqrt(1/temp))` via a
supplied standard-normal table scaled by `sqrt(1/temp)`), and the field of
scalars is a parameter `K` so that the same definitions run on `ℚ` for
concrete evaluation and are instantiated at `ℝ` when the statement involves
`Real.log`, `Real.cos`, `Real.sin` or `Real.sqrt`.
-/

/-- Failure modes of the sampler family: `preconditionError` models the
uninitialized-state failure (`forward` before any `update`, i.e. the access
to the absent `self.item_vec` attribute), `invalidScorerError` models the
failed `assert isinstance(scorer_fn, InnerProductScorer)` at construction,
and `indexOutOfBounds` models a torch indexing error `table[idx]` with an
index outside the table. -/
inductive SamplerError where
  | preconditionError : SamplerError
  | invalidScorerError : SamplerError
  | indexOutOfBounds : SamplerError
deriving DecidableEq, Repr

/-- The capability of a scorer object: `innerProduct` models instances of
`InnerProductScorer` (what `isinstance(scorer_fn, InnerProductScorer)`
accepts), `other` models any other scorer. -/
inductive ScorerKind where
  | innerProduct : ScorerKind
  | other : ScorerKind
deriving DecidableEq, Repr

/-- The pairwise score `InnerProductScorer` computes on one pair of vectors:
the inner product of the two rows. -/
def dot {K : Type} [Field K] (a b : List K) : K :=
  (List.zipWith (fun x y => x * y) a b).sum

/-- `torch.zeros_like(t)`: a tensor of zeros with the shape of `t`
(here for a 2-d tensor given as list of rows). -/
def zerosLike {K : Type} [Field K] (t : List (List K)) : List (List K) :=
  t.map (fun row => row.map (fun _ => (0 : K)))

/-- One draw of `torch.multinomial(w, …, replacement=True)` for a weight row
`w`, by inversion of the CDF: given a random value `r` (uniform on
`[0, w.sum)` when the draw is uniform), the sampled index is the first `j`
with `r < w[0] + … + w[j]`. -/
def multinomialIdx {K : Type} [LinearOrderedField K] (w : List K) (r : K) : Nat :=
  match w with
  | [] => 0
  | x :: xs => if r < x then 0 else multinomialIdx xs (r - x) + 1

/-- One draw of `torch.randint(0, n, …)`: the generator output `g` reduced
into `[0, n)`. -/
def randint (n : Nat) (g : Nat) : Nat :=
  g % n

/-- `torch.gather(w, -1, idx)` on one row: pick the entries of `w` at the
positions listed in `idx`. -/
def gather {K : Type} [Field K] (w : List K) (idx : List Nat) : List K :=
  idx.map (fun i => w.getD i 0)

/-- State held by a sampler object: the configured catalog size
`num_items`, the scorer passed at construction, and `item_vec`, the item
table installed by the last `update` (`none` while no `update` has
happened). -/
structure SamplerState (K : Type) where
  num_items : Nat
  scorerKind : ScorerKind
  item_vec : Option (List (List K))
deriving DecidableEq

/-- Modelled from the spec: the constructor of the `Sampler` base class
(`src/sampler/base.py`, absent from the sources) — it records the catalog
size and the scorer and holds no item table: per the spec, `update` "Must be
called before any `forward`" and before it there is "no item table
present". -/
def Sampler.mk0 {K : Type} (n : Nat) (kind : ScorerKind) : SamplerState K :=
  ⟨n, kind, none⟩

/-- `KernelSampler.__init__`: `assert isinstance(scorer_fn, InnerProductScorer)`
then the base constructor. The failed assert is `invalidScorerError`. -/
def KernelSampler.init {K : Type} (n : Nat) (kind : ScorerKind) :
    Except SamplerError (SamplerState K) :=
  if kind = ScorerKind.innerProduct then Except.ok (Sampler.mk0 n kind)
  else Except.error SamplerError.invalidScorerError

/-- `KernelSampler.update` / `KernelSamplerAppr.update`: store the given
item-embedding table, replacing any previous one. -/
def KernelSampler.update {K : Type} (st : SamplerState K)
    (itemEmbs : List (List K)) : SamplerState K :=
  ⟨st.num_items, st.scorerKind, some itemEmbs⟩

/-- `KernelSamplerAppr.__init__`: just the base constructor — unlike
`KernelSampler.__init__` it performs no scorer check. -/
def KernelSamplerAppr.init {K : Type} (n : Nat) (kind : ScorerKind) :
    Except SamplerError (SamplerState K) :=
  Except.ok (Sampler.mk0 n kind)

/-- The row of sampled item indices for one query row:
`torch.multinomial(w, num_samples=k, replacement=True)`, with the `k`
independent random values supplied by `r`. -/
def sampleRow {K : Type} [LinearOrderedField K] (w : List K) (k : Nat)
    (r : Nat → K) : List Nat :=
  (List.range k).map (fun s => multinomialIdx w (r s))

/-- The row of importance log-weights for one query row of the dense path:
`log(gather(w, idx) * k) - log(w.sum())`, with `logF` standing for
`torch.log`. -/
def negProbRow {K : Type} [LinearOrderedField K] (logF : K → K) (w : List K)
    (k : Nat) (idx : List Nat) : List K :=
  ((gather w idx).map (fun x => logF (x * (k : K)))).map
    (fun y => y - logF w.sum)

/-- What `KernelSampler.forward` returns: the placeholder positive
log-probability (present exactly when `pos_items` was passed), the 1-based
negative item IDs, and the importance log-weights. -/
structure ForwardResult (K : Type) where
  posProb : Option (List (List K))
  negIds : List (List Nat)
  negProb : List (List K)
deriving DecidableEq

/-- `KernelSampler.forward` (the dense path shared by `SphereSampler` and
`RFFSampler`): fails on the absent item table, otherwise builds the full
logits matrix via the variant's `get_logits` (passed as `getLogits`,
modelling the dynamic dispatch), multinomially samples `k` items per query
row with replacement, computes the self-normalized importance log-weights,
adds 1 to the sampled indices, and attaches a `zeros_like` placeholder when
`posItems` is given.  `rand q s` is the random value of draw `s` in row `q`;
`logF` is `torch.log`. -/
def KernelSampler.forward {K : Type} [LinearOrderedField K] (logF : K → K)
    (getLogits : List (List K) → List (List K) → List (List K))
    (st : SamplerState K) (query : List (List K)) (k : Nat)
    (rand : Nat → Nat → K) (posItems : Option (List (List K))) :
    Except SamplerError (ForwardResult K) :=
  match st.item_vec with
  | none => Except.error SamplerError.preconditionError
  | some table =>
    let logits := getLogits table query
    let negItems := (List.range logits.length).map
      (fun q => sampleRow (logits.getD q []) k (rand q))
    let negProb := (List.range logits.length).map
      (fun q => negProbRow logF (logits.getD q []) k (negItems.getD q []))
    Except.ok ⟨posItems.map zerosLike,
      negItems.map (fun row => row.map (fun i => i + 1)), negProb⟩

/-- `SphereSampler.get_logits`: `100 * scorer(query, item_vec) ** 2 + 1`,
one logits row per query row, one column per item row. -/
def SphereSampler.get_logits {K : Type} [LinearOrderedField K]
    (table : List (List K)) (query : List (List K)) : List (List K) :=
  query.map (fun q => table.map (fun v => 100 * (dot q v) ^ 2 + 1))

/-- `F.normalize(v, dim=-1)`: divide the row by `max(‖v‖₂, 1e-12)`
(torch's default `eps`), with `sqrtF` standing for the square root. -/
def l2normalize {K : Type} [LinearOrderedField K] (sqrtF : K → K)
    (v : List K) : List K :=
  v.map (fun x => x / max (sqrtF ((v.map (fun y => y * y)).sum)) (1 / 10 ^ 12))

/-- One row of the random projection matrix
`torch.normal(0, math.sqrt(1/temp), size=(…, R, D))`: the standard-normal
source `gauss r d` scaled by `sqrt(1/temp)`. -/
def rffProjRow {K : Type} [LinearOrderedField K] (sqrtF : K → K) (temp : K)
    (gauss : Nat → Nat → K) (D r : Nat) : List K :=
  (List.range D).map (fun d => sqrtF (1 / temp) * gauss r d)

/-- The raw projections `_scores = scorer(normalize(v), sampled_w)` of one
input row against its `R` freshly drawn projection rows, under an arbitrary
pairwise score function `scoreFn` (`InnerProductScorer` in `kernel_vec`,
`self.scorer` in `kernel_func`). -/
def rffScores {K : Type} [LinearOrderedField K]
    (scoreFn : List K → List K → K) (sqrtF : K → K) (temp : K) (R : Nat)
    (gauss : Nat → Nat → K) (v : List K) : List K :=
  (List.range R).map
    (fun r => scoreFn (l2normalize sqrtF v) (rffProjRow sqrtF temp gauss v.length r))

/-- `RFFSampler.kernel_vec` on one input row (the static method; its scorer
is a fresh `InnerProductScorer`, i.e. `dot`): L2-normalize, project against
the freshly drawn Gaussian matrix (supplied through `gauss`), and return
`1/sqrt(R) * cat([cos(_scores), sin(_scores)], dim=-1)`. -/
def RFFSampler.kernel_vec {K : Type} [LinearOrderedField K]
    (sqrtF cosF sinF : K → K) (temp : K) (R : Nat) (gauss : Nat → Nat → K)
    (v : List K) : List K :=
  ((rffScores dot sqrtF temp R gauss v).map cosF ++
      (rffScores dot sqrtF temp R gauss v).map sinF).map
    (fun x => 1 / sqrtF (R : K) * x)

/-- `RFFSampler.__init__` sets `self.temperature = 5` (the softmax
temperature `τ`, reserved for the loss). -/
def RFFSampler.temperature : ℚ := 5

/-- `RFFSampler.__init__` sets `self.nu = 4.0` (the feature scale `ν`). -/
def RFFSampler.nu : ℚ := 4

/-- `RFFSampler.__init__` sets `self.num_random_features = 32`. -/
def RFFSampler.num_random_features : Nat := 32

/-- `RFFSampler.update`: `self.item_vec = kernel_vec(item_embs, self.nu,
self.num_random_features)` — each item row gets its own fresh projection
matrix (`gauss i` for row `i`), the scale is `ν` and the width is `R = 32`. -/
def RFFSampler.update {K : Type} [LinearOrderedField K]
    (sqrtF cosF sinF : K → K) (gauss : Nat → Nat → Nat → K)
    (st : SamplerState K) (itemEmbs : List (List K)) : SamplerState K :=
  ⟨st.num_items, st.scorerKind,
    some ((List.range itemEmbs.length).map
      (fun i => RFFSampler.kernel_vec sqrtF cosF sinF
        ((RFFSampler.nu : ℚ) : K) RFFSampler.num_random_features (gauss i)
        (itemEmbs.getD i [])))⟩

/-- `RFFSampler.get_logits`: kernelize the query with the same scale `ν` and
width `R = 32` (fresh projections per query row, `gauss q`), then score it
against the stored kernelized item table with the inner-product scorer. -/
def RFFSampler.get_logits {K : Type} [LinearOrderedField K]
    (sqrtF cosF sinF : K → K) (gauss : Nat → Nat → Nat → K)
    (table : List (List K)) (query : List (List K)) : List (List K) :=
  (List.range query.length).map
    (fun q => table.map
      (fun iv => dot (RFFSampler.kernel_vec sqrtF cosF sinF
        ((RFFSampler.nu : ℚ) : K) RFFSampler.num_random_features (gauss q)
        (query.getD q [])) iv))

/-- The sampled-index matrix drawn by `KernelSamplerAppr.forward` before it
asks for logits: `Q` rows of `k` draws of `torch.randint(0, n)`. -/
def apprNegItems (n Q k : Nat) (g : Nat → Nat → Nat) : List (List Nat) :=
  (List.range Q).map (fun q => (List.range k).map (fun s => randint n (g q s)))

/-- `KernelSamplerAppr.forward` (the approximate path shared by
`SphereSamplerAppr` and `RffSamplerAppr`): fails on the absent item table,
otherwise draws `num_neg` indices per query row with
`torch.randint(0, self.num_items, …)` (generator outputs supplied by `g`),
asks the variant's `get_logits` (passed as `getLogits`, which receives the
stored table, the query and the sampled indices and may fail on an
out-of-bounds index) for the logits of the sampled pairs only, and returns
`log` of those logits as the importance log-weights — no row-normalization
term.  The placeholder `zeros_like` positive slot behaves as in the dense
path. -/
def KernelSamplerAppr.forward {K : Type} [LinearOrderedField K]
    (logF : K → K)
    (getLogits : List (List K) → List (List K) → List (List Nat) →
      Except SamplerError (List (List K)))
    (st : SamplerState K) (query : List (List K)) (k : Nat)
    (g : Nat → Nat → Nat) (posItems : Option (List (List K))) :
    Except SamplerError (ForwardResult K) :=
  match st.item_vec with
  | none => Except.error SamplerError.preconditionError
  | some table => do
    let negItems := apprNegItems st.num_items query.length k g
    let logits ← getLogits table query negItems
    Except.ok ⟨posItems.map zerosLike,
      negItems.map (fun row => row.map (fun i => i + 1)),
      logits.map (fun row => row.map logF)⟩

/-- The default `alpha=100.0` of `SphereSamplerAppr.get_logits`. -/
def SphereSamplerAppr.default_alpha : ℚ := 100

/-- `SphereSamplerAppr.get_logits`: for each query row and each sampled
index, fetch the item row `self.item_vec[sampled_items]` (failing on an
out-of-bounds index, as torch does) and return
`alpha * scorer(query, row) ** 2 + 1` for the sampled pairs only. -/
def SphereSamplerAppr.get_logits {K : Type} [LinearOrderedField K]
    (table : List (List K)) (query : List (List K))
    (sampledItems : List (List Nat)) : Except SamplerError (List (List K)) :=
  (List.range query.length).mapM
    (fun q => (sampledItems.getD q []).mapM (fun i =>
      match table.get? i with
      | none => Except.error SamplerError.indexOutOfBounds
      | some v => Except.ok (((SphereSamplerAppr.default_alpha : ℚ) : K) *
          (dot (query.getD q []) v) ^ 2 + 1)))

/-- The default `num_random_features=32` of `RffSamplerAppr.kernel_func`. -/
def RffSamplerAppr.default_num_random_features : Nat := 32

/-- The default `temp=5.0` of `RffSamplerAppr.kernel_func` — note it is the
temperature value, not `ν = 4`. -/
def RffSamplerAppr.default_temp : ℚ := 5

/-- `RffSamplerAppr.kernel_func` on one input row: the same
normalize/project/cos-sin pipeline as `RFFSampler.kernel_vec`, but scored
with `self.scorer` (`scoreFn`) and with the scale and width taken from the
defaults `temp=5.0`, `num_random_features=32` (both call sites pass only
the input). -/
def RffSamplerAppr.kernel_func {K : Type} [LinearOrderedField K]
    (scoreFn : List K → List K → K) (sqrtF cosF sinF : K → K)
    (gauss : Nat → Nat → K) (v : List K) : List K :=
  ((rffScores scoreFn sqrtF ((RffSamplerAppr.default_temp : ℚ) : K)
        RffSamplerAppr.default_num_random_features gauss v).map cosF ++
      (rffScores scoreFn sqrtF ((RffSamplerAppr.default_temp : ℚ) : K)
        RffSamplerAppr.default_num_random_features gauss v).map sinF).map
    (fun x => 1 / sqrtF ((RffSamplerAppr.default_num_random_features : Nat) : K) * x)

/-- `RffSamplerAppr.update`: store the raw table and cache
`self.kernel_item_vec = self.kernel_func(self.item_vec)` (fresh projections
per item row, defaults `temp=5.0`, `R=32`).  Returns the pair (base state,
cached kernelized table). -/
def RffSamplerAppr.update {K : Type} [LinearOrderedField K]
    (scoreFn : List K → List K → K) (sqrtF cosF sinF : K → K)
    (gauss : Nat → Nat → Nat → K) (st : SamplerState K)
    (itemEmbs : List (List K)) : SamplerState K × List (List K) :=
  (KernelSampler.update st itemEmbs,
    (List.range itemEmbs.length).map
      (fun i => RffSamplerAppr.kernel_func scoreFn sqrtF cosF sinF (gauss i)
        (itemEmbs.getD i [])))

/-- `RffSamplerAppr.get_logits`: kernelize the query with `kernel_func`
(defaults `temp=5.0`, `R=32`, fresh projections per query row), fetch the
cached kernelized item rows `self.kernel_item_vec[sampled_items]` (failing
on an out-of-bounds index), and score each sampled pair with
`self.scorer`.  `kernelTable` is the cached `kernel_item_vec`. -/
def RffSamplerAppr.get_logits {K : Type} [LinearOrderedField K]
    (scoreFn : List K → List K → K) (sqrtF cosF sinF : K → K)
    (gauss : Nat → Nat → Nat → K) (kernelTable : List (List K))
    (query : List (List K)) (sampledItems : List (List Nat)) :
    Except SamplerError (List (List K)) :=
  (List.range query.length).mapM
    (fun q => (sampledItems.getD q []).mapM (fun i =>
      match kernelTable.get? i with
      | none => Except.error SamplerError.indexOutOfBounds
      | some kv => Except.ok (scoreFn
          (RffSamplerAppr.kernel_func scoreFn sqrtF cosF sinF (gauss q)
            (query.getD q [])) kv)))

/-! ### Helper lemmas -/

theorem getD_range_map {α : Type} (f : Nat → α) (n q : Nat) (d : α)
    (h : q < n) : ((List.range n).map f).getD q d = f q := by
  rw [List.getD_eq_getElem?_getD, List.getElem?_map]
  rw [List.getElem?_range h]
  rfl

theorem getD_map_of_lt {α β : Type} (f : α → β) (l : List α) (s : Nat)
    (d : β) (dd : α) (h : s < l.length) :
    (l.map f).getD s d = f (l.getD s dd) := by
  rw [List.getD_eq_getElem?_getD, List.getElem?_map,
    List.getElem?_eq_getElem h, List.getD_eq_getElem?_getD,
    List.getElem?_eq_getElem h]
  rfl

theorem multinomialIdx_lt_length {K : Type} [LinearOrderedField K]
    (w : List K) (r : K) (hr0 : 0 ≤ r) (hrs : r < w.sum)
    (hw : ∀ x ∈ w, 0 ≤ x) : multinomialIdx w r < w.length := by
  induction w generalizing r with
  | nil =>
    simp only [List.sum_nil] at hrs
    exact absurd (lt_of_le_of_lt hr0 hrs) (lt_irrefl 0)
  | cons x xs ih =>
    by_cases hx : r < x
    · simp [multinomialIdx, hx]
    · have h1 : multinomialIdx (x :: xs) r = multinomialIdx xs (r - x) + 1 := by
        simp [multinomialIdx, hx]
      have h2 : multinomialIdx xs (r - x) < xs.length := by
        apply ih (r - x) (by linarith [not_lt.mp hx])
        · have := List.sum_cons (a := x) (l := xs)
          rw [this] at hrs
          linarith
        · intro y hy
          exact hw y (List.mem_cons_of_mem x hy)
      rw [h1]
      simpa using Nat.succ_lt_succ h2

theorem length_sampleRow {K : Type} [LinearOrderedField K] (w : List K)
    (k : Nat) (r : Nat → K) : (sampleRow w k r).length = k := by
  simp [sampleRow]

theorem getD_sampleRow {K : Type} [LinearOrderedField K] (w : List K)
    (k : Nat) (r : Nat → K) (s : Nat) (hs : s < k) :
    (sampleRow w k r).getD s 0 = multinomialIdx w (r s) := by
  unfold sampleRow
  exact getD_range_map (fun s => multinomialIdx w (r s)) k s 0 hs

theorem length_negProbRow {K : Type} [LinearOrderedField K] (logF : K → K)
    (w : List K) (k : Nat) (idx : List Nat) :
    (negProbRow logF w k idx).length = idx.length := by
  simp [negProbRow, gather]

theorem getD_negProbRow {K : Type} [LinearOrderedField K] (logF : K → K)
    (w : List K) (k : Nat) (idx : List Nat) (s : Nat) (hs : s < idx.length) :
    (negProbRow logF w k idx).getD s 0 =
      logF (w.getD (idx.getD s 0) 0 * (k : K)) - logF w.sum := by
  unfold negProbRow
  rw [getD_map_of_lt (fun y => y - logF w.sum) _ s 0 0
    (by simp [gather]; exact hs)]
  rw [getD_map_of_lt (fun x => logF (x * (k : K))) _ s 0 0
    (by simp [gather]; exact hs)]
  unfold gather
  rw [getD_map_of_lt (fun i => w.getD i 0) idx s 0 0 hs]

theorem mapM_except_isOk {α β ε : Type} (l : List α) (f : α → Except ε β)
    (h : ∀ a ∈ l, ∃ b, f a = Except.ok b) :
    ∃ bs, l.mapM f = Except.ok bs := by
  induction l with
  | nil => exact ⟨[], rfl⟩
  | cons a as ih =>
    obtain ⟨b, hb⟩ := h a (List.mem_cons_self a as)
    obtain ⟨bs, hbs⟩ := ih (fun x hx => h x (List.mem_cons_of_mem a hx))
    refine ⟨b :: bs, ?_⟩
    rw [List.mapM_cons, hb, hbs]
    rfl

theorem randint_lt (n g : Nat) (hn : 0 < n) : randint n g < n :=
  Nat.mod_lt g hn

theorem randint_uniform_count (n j : Nat) (hj : j < n) :
    ((Finset.range n).filter (fun g => randint n g = j)).card = 1 := by
  have hfe : (Finset.range n).filter (fun g => randint n g = j) =
      (Finset.range n).filter (fun g => g = j) := by
    apply Finset.filter_congr
    intro g hg
    have hgn : g < n := Finset.mem_range.mp hg
    unfold randint
    rw [Nat.mod_eq_of_lt hgn]
  rw [hfe, Finset.filter_eq']
  simp [Finset.mem_range.mpr hj]

/-! ### Claim theorems -/

/-- C3: for every stored item table and every query batch,
`SphereSampler.get_logits` returns `100 * similarity² + 1` entrywise (the
similarity being the inner-product score of the query row and the item row),
and every entry of the output is at least 1, hence strictly positive. -/
theorem C3_sphere_logits_formula_and_positive {K : Type}
    [LinearOrderedField K] (table query : List (List K)) :
    (∀ q, q < query.length → ∀ j, j < table.length →
      ((SphereSampler.get_logits table query).getD q []).getD j 0 =
        100 * dot (query.getD q []) (table.getD j []) ^ 2 + 1) ∧
    (∀ row ∈ SphereSampler.get_logits table query, ∀ x ∈ row, 1 ≤ x) := by
  constructor
  · intro q hq j hj
    unfold SphereSampler.get_logits
    rw [getD_map_of_lt _ query q [] [] hq]
    rw [getD_map_of_lt _ table j 0 [] hj]
  · intro row hrow x hx
    unfold SphereSampler.get_logits at hrow
    obtain ⟨qr, _, rfl⟩ := List.mem_map.mp hrow
    obtain ⟨v, _, rfl⟩ := List.mem_map.mp hx
    nlinarith [sq_nonneg (dot qr v)]

/-- Witness for C3 at a concrete one-item, one-query instance. -/
theorem C3_witness :
    ((SphereSampler.get_logits [[(1 : ℚ)]] [[(2 : ℚ)]]).getD 0 []).getD 0 0 =
      100 * dot ([[(2 : ℚ)]].getD 0 []) ([[(1 : ℚ)]].getD 0 []) ^ 2 + 1 :=
  (C3_sphere_logits_formula_and_positive [[(1 : ℚ)]] [[(2 : ℚ)]]).1
    0 (by decide) 0 (by decide)

/-- C7 fails as stated: `SphereSamplerAppr` and `RffSamplerAppr` construct
through `KernelSamplerAppr.__init__`, which performs no scorer check, so
building one with a non-inner-product scorer does not fail. -/
theorem C7_cex_appr_init_no_check :
    KernelSamplerAppr.init (K := ℚ) 5 ScorerKind.other ≠
      Except.error SamplerError.invalidScorerError := by
  unfold KernelSamplerAppr.init
  intro h
  simp at h

/-- C7 (amended): the dense kernel samplers (`SphereSampler`, `RFFSampler`,
via `KernelSampler.__init__`) fail at construction with the invalid-scorer
error when the scorer is not inner-product-based and construct otherwise;
the approximate samplers (`SphereSamplerAppr`, `RffSamplerAppr`, via
`KernelSamplerAppr.__init__`) perform no scorer check and construct
successfully with any scorer. -/
theorem C7_amended_scorer_check {K : Type} (n : Nat) (kind : ScorerKind) :
    (kind ≠ ScorerKind.innerProduct →
      KernelSampler.init (K := K) n kind =
        Except.error SamplerError.invalidScorerError) ∧
    KernelSampler.init (K := K) n ScorerKind.innerProduct =
      Except.ok (Sampler.mk0 n ScorerKind.innerProduct) ∧
    KernelSamplerAppr.init (K := K) n kind =
      Except.ok (Sampler.mk0 n kind) := by
  refine ⟨?_, by simp [KernelSampler.init], rfl⟩
  intro h
  simp [KernelSampler.init, h]

/-- Witness for C7's amended theorem with a non-inner-product scorer. -/
theorem C7_witness :
    KernelSampler.init (K := ℚ) 3 ScorerKind.other =
      Except.error SamplerError.invalidScorerError :=
  (C7_amended_scorer_check 3 ScorerKind.other).1 (by decide)

/-- C6: invoking `forward` on a freshly constructed sampler of any of the
four variants, before any `update`, fails with the uninitialized-state
(precondition) error because no item table is present — for every query,
`num_neg`, random source and optional positive items, and for every logits
function the variant could dispatch to. -/
theorem C6_forward_before_update_fails {K : Type} [LinearOrderedField K]
    (n : Nat) (kind : ScorerKind) (logF : K → K)
    (gD : List (List K) → List (List K) → List (List K))
    (gA : List (List K) → List (List K) → List (List Nat) →
      Except SamplerError (List (List K)))
    (query : List (List K)) (k : Nat) (rand : Nat → Nat → K)
    (g : Nat → Nat → Nat) (posItems : Option (List (List K)))
    (st : SamplerState K)
    (hst : KernelSampler.init n kind = Except.ok st ∨
      KernelSamplerAppr.init n kind = Except.ok st) :
    KernelSampler.forward logF gD st query k rand posItems =
      Except.error SamplerError.preconditionError ∧
    KernelSamplerAppr.forward logF gA st query k g posItems =
      Except.error SamplerError.preconditionError := by
  have hnone : st.item_vec = none := by
    rcases hst with h | h
    · unfold KernelSampler.init at h
      by_cases hk : kind = ScorerKind.innerProduct
      · rw [if_pos hk] at h
        cases h
        rfl
      · rw [if_neg hk] at h
        simp at h
    · unfold KernelSamplerAppr.init at h
      cases h
      rfl
  constructor
  · unfold KernelSampler.forward
    rw [hnone]
  · unfold KernelSamplerAppr.forward
    rw [hnone]

/-- Witness for C6: a concrete freshly built dense and approximate sampler
both refuse `forward`. -/
theorem C6_witness :
    KernelSampler.forward (K := ℚ) id (fun _ _ => [])
        (Sampler.mk0 3 ScorerKind.innerProduct) [[1]] 2 (fun _ _ => 0)
        none = Except.error SamplerError.preconditionError ∧
    KernelSamplerAppr.forward (K := ℚ) id (fun _ _ _ => Except.ok [])
        (Sampler.mk0 3 ScorerKind.innerProduct) [[1]] 2 (fun _ _ => 0)
        none = Except.error SamplerError.preconditionError :=
  C6_forward_before_update_fails 3 ScorerKind.innerProduct id
    (fun _ _ => []) (fun _ _ _ => Except.ok []) [[1]] 2 (fun _ _ => 0)
    (fun _ _ => 0) none (Sampler.mk0 3 ScorerKind.innerProduct)
    (Or.inl (by rfl))

theorem getD_mem {α : Type} (l : List α) (q : Nat) (d : α)
    (h : q < l.length) : l.getD q d ∈ l := by
  rw [List.getD_eq_getElem?_getD, List.getElem?_eq_getElem h]
  exact List.getElem_mem h

theorem getD_of_length_le {α : Type} (l : List α) (q : Nat) (d : α)
    (h : l.length ≤ q) : l.getD q d = d := by
  rw [List.getD_eq_getElem?_getD, List.getElem?_eq_none h]
  rfl

theorem mapM_except_congr {α β ε : Type} (l : List α)
    (f g : α → Except ε β) (h : ∀ a ∈ l, f a = g a) :
    l.mapM f = l.mapM g := by
  induction l with
  | nil => rfl
  | cons a as ih =>
    rw [List.mapM_cons, List.mapM_cons, h a (List.mem_cons_self a as),
      ih (fun x hx => h x (List.mem_cons_of_mem a hx))]

theorem mapM_except_ok_map {α β ε : Type} (l : List α) (f : α → Except ε β)
    (fn : α → β) (h : ∀ a ∈ l, f a = Except.ok (fn a)) :
    l.mapM f = Except.ok (l.map fn) := by
  induction l with
  | nil => rfl
  | cons a as ih =>
    rw [List.mapM_cons, h a (List.mem_cons_self a as),
      ih (fun x hx => h x (List.mem_cons_of_mem a hx))]
    rfl

theorem mapM_except_ok_forall₂ {α β ε : Type} {l : List α}
    {f : α → Except ε β} {bs : List β} (h : l.mapM f = Except.ok bs) :
    List.Forall₂ (fun a b => f a = Except.ok b) l bs := by
  induction l generalizing bs with
  | nil =>
    have h0 : (Except.ok [] : Except ε (List β)) = Except.ok bs := h
    cases h0
    constructor
  | cons a as ih =>
    rw [List.mapM_cons] at h
    cases hfa : f a with
    | error e =>
      rw [hfa] at h
      have h0 : (Except.error e : Except ε (List β)) = Except.ok bs := h
      cases h0
    | ok b =>
      rw [hfa] at h
      cases has : as.mapM f with
      | error e =>
        rw [has] at h
        have h0 : (Except.error e : Except ε (List β)) = Except.ok bs := h
        cases h0
      | ok bs2 =>
        rw [has] at h
        have h0 : (Except.ok (b :: bs2) : Except ε (List β)) = Except.ok bs := h
        cases h0
        exact List.Forall₂.cons hfa (ih has)

theorem apprForward_eq_ok {K : Type} [LinearOrderedField K] (logF : K → K)
    (gA : List (List K) → List (List K) → List (List Nat) →
      Except SamplerError (List (List K)))
    (n : Nat) (kind : ScorerKind) (table query : List (List K)) (k : Nat)
    (g : Nat → Nat → Nat) (pos : Option (List (List K)))
    (lg : List (List K))
    (hA : gA table query (apprNegItems n query.length k g) = Except.ok lg) :
    KernelSamplerAppr.forward logF gA ⟨n, kind, some table⟩ query k g pos =
      Except.ok ⟨pos.map zerosLike,
        (apprNegItems n query.length k g).map
          (fun row => row.map (fun i => i + 1)),
        lg.map (fun row => row.map logF)⟩ := by
  unfold KernelSamplerAppr.forward
  dsimp only
  rw [hA]
  rfl

theorem apprForward_ok_inv {K : Type} [LinearOrderedField K] (logF : K → K)
    (gA : List (List K) → List (List K) → List (List Nat) →
      Except SamplerError (List (List K)))
    (st : SamplerState K) (query : List (List K)) (k : Nat)
    (g : Nat → Nat → Nat) (pos : Option (List (List K)))
    (res : ForwardResult K)
    (h : KernelSamplerAppr.forward logF gA st query k g pos =
      Except.ok res) :
    ∃ table lg, st.item_vec = some table ∧
      gA table query (apprNegItems st.num_items query.length k g) =
        Except.ok lg ∧
      res = ⟨pos.map zerosLike,
        (apprNegItems st.num_items query.length k g).map
          (fun row => row.map (fun i => i + 1)),
        lg.map (fun row => row.map logF)⟩ := by
  unfold KernelSamplerAppr.forward at h
  cases hiv : st.item_vec with
  | none =>
    rw [hiv] at h
    cases h
  | some table =>
    rw [hiv] at h
    dsimp only at h
    cases hga : gA table query (apprNegItems st.num_items query.length k g) with
    | error e =>
      rw [hga] at h
      have h0 : (Except.error e : Except SamplerError (ForwardResult K)) =
          Except.ok res := h
      cases h0
    | ok lg =>
      rw [hga] at h
      have h0 : Except.ok (⟨pos.map zerosLike,
          (apprNegItems st.num_items query.length k g).map
            (fun row => row.map (fun i => i + 1)),
          lg.map (fun row => row.map logF)⟩ : ForwardResult K) =
          Except.ok res := h
      cases h0
      exact ⟨table, lg, rfl, hga, rfl⟩

/-- C9: in both the dense and the approximate `forward`, supplying
`pos_items` yields a third returned value — an all-zeros placeholder with
the shape of `pos_items` — while supplying `None` yields only the two
negative outputs (here: the positive slot of the result is `none`). The
last three conjuncts state that the placeholder has exactly the shape of
`pos_items` and is identically zero. -/
theorem C9_pos_placeholder {K : Type} [LinearOrderedField K] (logF : K → K)
    (gD : List (List K) → List (List K) → List (List K))
    (gA : List (List K) → List (List K) → List (List Nat) →
      Except SamplerError (List (List K)))
    (n : Nat) (kind : ScorerKind) (table query : List (List K)) (k : Nat)
    (rand : Nat → Nat → K) (g : Nat → Nat → Nat) (p : List (List K))
    (lg : List (List K))
    (hA : gA table query (apprNegItems n query.length k g) = Except.ok lg) :
    (∃ res, KernelSampler.forward logF gD ⟨n, kind, some table⟩ query k
        rand (some p) = Except.ok res ∧ res.posProb = some (zerosLike p)) ∧
    (∃ res, KernelSampler.forward logF gD ⟨n, kind, some table⟩ query k
        rand none = Except.ok res ∧ res.posProb = none) ∧
    (∃ res, KernelSamplerAppr.forward logF gA ⟨n, kind, some table⟩ query k
        g (some p) = Except.ok res ∧ res.posProb = some (zerosLike p)) ∧
    (∃ res, KernelSamplerAppr.forward logF gA ⟨n, kind, some table⟩ query k
        g none = Except.ok res ∧ res.posProb = none) ∧
    (zerosLike p).length = p.length ∧
    (∀ q, ((zerosLike p).getD q []).length = (p.getD q []).length) ∧
    (∀ row ∈ zerosLike p, ∀ x ∈ row, x = 0) := by
  refine ⟨⟨_, rfl, rfl⟩, ⟨_, rfl, rfl⟩,
    ⟨_, apprForward_eq_ok logF gA n kind table query k g (some p) lg hA, rfl⟩,
    ⟨_, apprForward_eq_ok logF gA n kind table query k g none lg hA, rfl⟩,
    ?_, ?_, ?_⟩
  · simp [zerosLike]
  · intro q
    by_cases hq : q < p.length
    · unfold zerosLike
      rw [getD_map_of_lt _ p q [] [] hq]
      simp
    · have hq2 : p.length ≤ q := Nat.le_of_not_lt hq
      rw [getD_of_length_le p q [] hq2,
        getD_of_length_le (zerosLike p) q [] (by simp [zerosLike]; exact hq2)]
  · intro row hrow x hx
    unfold zerosLike at hrow
    obtain ⟨r0, _, rfl⟩ := List.mem_map.mp hrow
    obtain ⟨y, _, rfl⟩ := List.mem_map.mp hx
    rfl

/-- Witness for C9 at a concrete instance of both paths. -/
theorem C9_witness :
    (∃ res, KernelSampler.forward (K := ℚ) id (fun _ _ => [[2]])
        ⟨1, ScorerKind.innerProduct, some [[1]]⟩ [[1]] 1 (fun _ _ => 0)
        (some [[7], [8, 9]]) = Except.ok res ∧
      res.posProb = some (zerosLike [[7], [8, 9]])) ∧
    (∃ res, KernelSampler.forward (K := ℚ) id (fun _ _ => [[2]])
        ⟨1, ScorerKind.innerProduct, some [[1]]⟩ [[1]] 1 (fun _ _ => 0)
        none = Except.ok res ∧ res.posProb = none) ∧
    (∃ res, KernelSamplerAppr.forward (K := ℚ) id
        (fun _ _ _ => Except.ok [[3]])
        ⟨1, ScorerKind.innerProduct, some [[1]]⟩ [[1]] 1 (fun _ _ => 0)
        (some [[7], [8, 9]]) = Except.ok res ∧
      res.posProb = some (zerosLike [[7], [8, 9]])) ∧
    (∃ res, KernelSamplerAppr.forward (K := ℚ) id
        (fun _ _ _ => Except.ok [[3]])
        ⟨1, ScorerKind.innerProduct, some [[1]]⟩ [[1]] 1 (fun _ _ => 0)
        none = Except.ok res ∧ res.posProb = none) ∧
    (zerosLike [[(7 : ℚ)], [8, 9]]).length = [[(7 : ℚ)], [8, 9]].length ∧
    (∀ q, ((zerosLike [[(7 : ℚ)], [8, 9]]).getD q []).length =
      ([[(7 : ℚ)], [8, 9]].getD q []).length) ∧
    (∀ row ∈ zerosLike [[(7 : ℚ)], [8, 9]], ∀ x ∈ row, x = 0) :=
  C9_pos_placeholder id (fun _ _ => [[2]]) (fun _ _ _ => Except.ok [[3]])
    1 ScorerKind.innerProduct [[1]] [[1]] 1 (fun _ _ => 0) (fun _ _ => 0)
    [[7], [8, 9]] [[3]] rfl

theorem denseForward_eq_ok {K : Type} [LinearOrderedField K] (logF : K → K)
    (gD : List (List K) → List (List K) → List (List K)) (n : Nat)
    (kind : ScorerKind) (table query : List (List K)) (k : Nat)
    (rand : Nat → Nat → K) (pos : Option (List (List K))) :
    KernelSampler.forward logF gD ⟨n, kind, some table⟩ query k rand pos =
      Except.ok ⟨pos.map zerosLike,
        ((List.range (gD table query).length).map
          (fun q => sampleRow ((gD table query).getD q []) k (rand q))).map
          (fun row => row.map (fun i => i + 1)),
        (List.range (gD table query).length).map
          (fun q => negProbRow logF ((gD table query).getD q []) k
            (((List.range (gD table query).length).map
              (fun q2 => sampleRow ((gD table query).getD q2 []) k
                (rand q2))).getD q []))⟩ := rfl

/-- C1: in the dense path (`SphereSampler`/`RFFSampler` `forward` with any
logits function, any query batch and any stored item table), the importance
log-weight of sample `s` of query row `q` equals
`log(weight_of_sampled_item * num_neg) - log(sum of the row's weights)`,
where the weight row is row `q` of the logits matrix and the sampled item is
the index multinomially drawn from that row (the returned ID being that
index plus one). -/
theorem C1_dense_log_weight
    (gD : List (List ℝ) → List (List ℝ) → List (List ℝ)) (n : Nat)
    (kind : ScorerKind) (table query : List (List ℝ)) (k : Nat)
    (rand : Nat → Nat → ℝ) (pos : Option (List (List ℝ)))
    (res : ForwardResult ℝ)
    (hres : KernelSampler.forward Real.log gD ⟨n, kind, some table⟩ query k
      rand pos = Except.ok res)
    (q s : Nat) (hq : q < (gD table query).length) (hs : s < k) :
    (res.negProb.getD q []).getD s 0 =
      Real.log (((gD table query).getD q []).getD
          (multinomialIdx ((gD table query).getD q []) (rand q s)) 0 *
          (k : ℝ)) -
        Real.log ((gD table query).getD q []).sum ∧
    (res.negIds.getD q []).getD s 0 =
      multinomialIdx ((gD table query).getD q []) (rand q s) + 1 := by
  rw [denseForward_eq_ok] at hres
  cases hres
  constructor
  · rw [getD_range_map _ _ q [] hq]
    rw [getD_range_map _ _ q [] hq]
    rw [getD_negProbRow _ _ _ _ s (by rw [length_sampleRow]; exact hs)]
    rw [getD_sampleRow _ _ _ s hs]
  · rw [getD_map_of_lt _ _ q [] []
      (by rw [List.length_map, List.length_range]; exact hq)]
    rw [getD_range_map _ _ q [] hq]
    rw [getD_map_of_lt _ _ s 0 0 (by rw [length_sampleRow]; exact hs)]
    rw [getD_sampleRow _ _ _ s hs]

/-- Witness for C1 at a concrete one-row instance over `ℝ`. -/
theorem C1_witness :
    ∃ res, KernelSampler.forward Real.log (fun _ _ => [[(2 : ℝ)]])
        ⟨1, ScorerKind.innerProduct, some []⟩ [] 1 (fun _ _ => 0) none =
        Except.ok res ∧
      ((res.negProb.getD 0 []).getD 0 0 =
        Real.log (([[(2 : ℝ)]].getD 0 []).getD
            (multinomialIdx ([[(2 : ℝ)]].getD 0 []) 0) 0 * ((1 : Nat) : ℝ)) -
          Real.log ([[(2 : ℝ)]].getD 0 []).sum ∧
      (res.negIds.getD 0 []).getD 0 0 =
        multinomialIdx ([[(2 : ℝ)]].getD 0 []) 0 + 1) :=
  ⟨_, rfl, C1_dense_log_weight (fun _ _ => [[(2 : ℝ)]]) 1
    ScorerKind.innerProduct [] [] 1 (fun _ _ => 0) none _ rfl 0 0
    (by simp) (by simp)⟩

/-- C5: for valid inputs (state after an `update`, positive full-width
logits in the dense path, in-range random values, a logits function whose
output matches the query batch and the item table, `num_neg = k`), both the
dense and the approximate `forward` return exactly `k` negative IDs per
query row and `k` log-weights per query row, the outer dimension being the
number of query rows, and every returned ID lies in `[1, num_items]`
(0-based sampled index plus one). -/
theorem C5_forward_shape_and_range {K : Type} [LinearOrderedField K]
    (logF : K → K)
    (gD : List (List K) → List (List K) → List (List K))
    (gA : List (List K) → List (List K) → List (List Nat) →
      Except SamplerError (List (List K)))
    (n : Nat) (kind : ScorerKind) (table query : List (List K)) (k : Nat)
    (rand : Nat → Nat → K) (g : Nat → Nat → Nat)
    (pos : Option (List (List K))) (lg : List (List K))
    (hQ : (gD table query).length = query.length)
    (hrowlen : ∀ q, q < (gD table query).length →
      ((gD table query).getD q []).length = table.length)
    (hpos : ∀ row ∈ gD table query, ∀ x ∈ row, 0 ≤ x)
    (hrand : ∀ q s, q < (gD table query).length → s < k →
      0 ≤ rand q s ∧ rand q s < ((gD table query).getD q []).sum)
    (htn : table.length = n) (hn : 0 < n)
    (hA : gA table query (apprNegItems n query.length k g) = Except.ok lg)
    (hlg : lg.length = query.length ∧
      ∀ q, q < query.length → (lg.getD q []).length = k) :
    (∃ res, KernelSampler.forward logF gD ⟨n, kind, some table⟩ query k
        rand pos = Except.ok res ∧
      res.negIds.length = query.length ∧
      res.negProb.length = query.length ∧
      ∀ q, q < query.length →
        (res.negIds.getD q []).length = k ∧
        (res.negProb.getD q []).length = k ∧
        ∀ s, s < k → 1 ≤ (res.negIds.getD q []).getD s 0 ∧
          (res.negIds.getD q []).getD s 0 ≤ n) ∧
    (∃ res, KernelSamplerAppr.forward logF gA ⟨n, kind, some table⟩ query k
        g pos = Except.ok res ∧
      res.negIds.length = query.length ∧
      res.negProb.length = query.length ∧
      ∀ q, q < query.length →
        (res.negIds.getD q []).length = k ∧
        (res.negProb.getD q []).length = k ∧
        ∀ s, s < k → 1 ≤ (res.negIds.getD q []).getD s 0 ∧
          (res.negIds.getD q []).getD s 0 ≤ n) := by
  constructor
  · refine ⟨_, denseForward_eq_ok logF gD n kind table query k rand pos,
      ?_, ?_, ?_⟩
    · simp [hQ]
    · simp [hQ]
    · intro q hq
      have hqL : q < (gD table query).length := by rw [hQ]; exact hq
      refine ⟨?_, ?_, ?_⟩
      · rw [getD_map_of_lt _ _ q [] [] (by simpa using hqL)]
        rw [getD_range_map _ _ q [] hqL]
        rw [List.length_map]
        exact length_sampleRow _ k (rand q)
      · rw [getD_range_map _ _ q [] hqL]
        rw [getD_range_map _ _ q [] hqL]
        rw [length_negProbRow, length_sampleRow]
      · intro s hs
        rw [getD_map_of_lt _ _ q [] [] (by simpa using hqL)]
        rw [getD_range_map _ _ q [] hqL]
        rw [getD_map_of_lt _ _ s 0 0 (by rw [length_sampleRow]; exact hs)]
        rw [getD_sampleRow _ _ _ s hs]
        refine ⟨Nat.succ_le_succ (Nat.zero_le _), ?_⟩
        have hw : multinomialIdx ((gD table query).getD q []) (rand q s) <
            ((gD table query).getD q []).length := by
          apply multinomialIdx_lt_length _ _ (hrand q s hqL hs).1
            (hrand q s hqL hs).2
          intro x hx
          exact hpos _ (getD_mem _ q [] hqL) x hx
        rw [hrowlen q hqL, htn] at hw
        omega
  · refine ⟨_, apprForward_eq_ok logF gA n kind table query k g pos lg hA,
      ?_, ?_, ?_⟩
    · simp [apprNegItems]
    · simp [hlg.1]
    · intro q hq
      refine ⟨?_, ?_, ?_⟩
      · rw [getD_map_of_lt _ _ q [] []
          (by simpa [apprNegItems] using hq)]
        unfold apprNegItems
        rw [getD_range_map _ _ q [] hq]
        simp
      · rw [getD_map_of_lt _ _ q [] [] (by rw [hlg.1]; exact hq)]
        rw [List.length_map, hlg.2 q hq]
      · intro s hs
        rw [getD_map_of_lt _ _ q [] []
          (by simpa [apprNegItems] using hq)]
        unfold apprNegItems
        rw [getD_range_map _ _ q [] hq]
        rw [getD_map_of_lt _ _ s 0 0 (by simpa using hs)]
        rw [getD_range_map _ _ s 0 hs]
        have := randint_lt n (g q s) hn
        omega

/-- Witness for C5 at a concrete one-item, one-query instance over `ℚ`. -/
theorem C5_witness :
    (∃ res, KernelSampler.forward (K := ℚ) id (fun _ _ => [[2]])
        ⟨1, ScorerKind.innerProduct, some [[5]]⟩ [[9]] 1 (fun _ _ => 0)
        none = Except.ok res ∧
      res.negIds.length = [[(9 : ℚ)]].length ∧
      res.negProb.length = [[(9 : ℚ)]].length ∧
      ∀ q, q < [[(9 : ℚ)]].length →
        (res.negIds.getD q []).length = 1 ∧
        (res.negProb.getD q []).length = 1 ∧
        ∀ s, s < 1 → 1 ≤ (res.negIds.getD q []).getD s 0 ∧
          (res.negIds.getD q []).getD s 0 ≤ 1) ∧
    (∃ res, KernelSamplerAppr.forward (K := ℚ) id
        (fun _ _ _ => Except.ok [[3]])
        ⟨1, ScorerKind.innerProduct, some [[5]]⟩ [[9]] 1 (fun _ _ => 0)
        none = Except.ok res ∧
      res.negIds.length = [[(9 : ℚ)]].length ∧
      res.negProb.length = [[(9 : ℚ)]].length ∧
      ∀ q, q < [[(9 : ℚ)]].length →
        (res.negIds.getD q []).length = 1 ∧
        (res.negProb.getD q []).length = 1 ∧
        ∀ s, s < 1 → 1 ≤ (res.negIds.getD q []).getD s 0 ∧
          (res.negIds.getD q []).getD s 0 ≤ 1) :=
  C5_forward_shape_and_range id (fun _ _ => [[2]])
    (fun _ _ _ => Except.ok [[3]]) 1 ScorerKind.innerProduct [[5]] [[9]] 1
    (fun _ _ => 0) (fun _ _ => 0) none [[3]] rfl
    (by
      intro q hq
      have hq1 : q < 1 := by simpa using hq
      have hq0 : q = 0 := by omega
      subst hq0
      rfl)
    (by decide)
    (by
      intro q s hq hs
      have hq1 : q < 1 := by simpa using hq
      have hs1 : s < 1 := hs
      have hq0 : q = 0 := by omega
      have hs0 : s = 0 := by omega
      subst hq0
      subst hs0
      exact ⟨le_refl 0, by norm_num [dot]⟩)
    rfl (by decide) rfl
    ⟨rfl, by
      intro q hq
      have hq1 : q < 1 := by simpa using hq
      have hq0 : q = 0 := by omega
      subst hq0
      rfl⟩

theorem getD_eq_get {α : Type} (l : List α) (q : Nat) (d : α)
    (h : q < l.length) : l.getD q d = l.get ⟨q, h⟩ := by
  rw [List.getD_eq_getElem?_getD, List.getElem?_eq_getElem h]
  rfl

theorem range_mapM_rows_shape {β ε : Type} {Q : Nat}
    {f : Nat → Except ε (List β)} {lg : List (List β)}
    (h : (List.range Q).mapM f = Except.ok lg) :
    lg.length = Q ∧
    ∀ q, q < Q → ∃ row, f q = Except.ok row ∧ lg.getD q [] = row := by
  have h2 := mapM_except_ok_forall₂ h
  have hlen := h2.length_eq
  rw [List.length_range] at hlen
  refine ⟨hlen.symm, ?_⟩
  intro q hq
  have h₁ : q < (List.range Q).length := by simpa using hq
  have h₂ : q < lg.length := hlen ▸ hq
  have h3 := h2.get h₁ h₂
  rw [List.get_range] at h3
  exact ⟨lg.get ⟨q, h₂⟩, h3, getD_eq_get lg q [] h₂⟩

/-- C2: in the approximate path (`SphereSamplerAppr`/`RffSamplerAppr`
`forward`), (a) each of the `num_neg` sampled indices per query row is a
`torch.randint(0, num_items)` draw, lies in `[0, num_items)` and is
returned as that index plus one; (b) each draw is uniform over
`[0, num_items)` (each target index is hit by exactly one generator residue
out of `num_items`); (c) the sampled IDs are independent of the query
contents, the item table and the similarity/logits function; (d)/(e) the
per-variant `get_logits` reads only the item-table rows at sampled indices,
so no full query-by-num_items matrix enters the computation, and (f) its
output has one entry per sampled pair; (g) the returned importance
log-weight is `log(logit)` of the sampled pair with no row-normalization
term. -/
theorem C2_appr_uniform_and_unnormalized (n k : Nat) (kind : ScorerKind)
    (g : Nat → Nat → Nat) (hn : 0 < n) :
    (∀ (gA : List (List ℝ) → List (List ℝ) → List (List Nat) →
        Except SamplerError (List (List ℝ)))
      (table query : List (List ℝ)) (pos : Option (List (List ℝ)))
      (res : ForwardResult ℝ),
      KernelSamplerAppr.forward Real.log gA ⟨n, kind, some table⟩ query k g
        pos = Except.ok res →
      ∀ q, q < query.length → ∀ s, s < k →
        (res.negIds.getD q []).getD s 0 = randint n (g q s) + 1 ∧
        randint n (g q s) < n) ∧
    (∀ j, j < n →
      ((Finset.range n).filter (fun x => randint n x = j)).card = 1) ∧
    (∀ (gA₁ gA₂ : List (List ℝ) → List (List ℝ) → List (List Nat) →
        Except SamplerError (List (List ℝ)))
      (t₁ t₂ q₁ q₂ : List (List ℝ))
      (pos₁ pos₂ : Option (List (List ℝ))) (res₁ res₂ : ForwardResult ℝ),
      q₁.length = q₂.length →
      KernelSamplerAppr.forward Real.log gA₁ ⟨n, kind, some t₁⟩ q₁ k g
        pos₁ = Except.ok res₁ →
      KernelSamplerAppr.forward Real.log gA₂ ⟨n, kind, some t₂⟩ q₂ k g
        pos₂ = Except.ok res₂ →
      res₁.negIds = res₂.negIds) ∧
    (∀ (t₁ t₂ query : List (List ℝ)) (sampled : List (List Nat)),
      (∀ row ∈ sampled, ∀ i ∈ row, t₁.get? i = t₂.get? i) →
      SphereSamplerAppr.get_logits t₁ query sampled =
        SphereSamplerAppr.get_logits t₂ query sampled) ∧
    (∀ (scoreFn : List ℝ → List ℝ → ℝ) (sqrtF cosF sinF : ℝ → ℝ)
      (gaussQ : Nat → Nat → Nat → ℝ) (kt₁ kt₂ query : List (List ℝ))
      (sampled : List (List Nat)),
      (∀ row ∈ sampled, ∀ i ∈ row, kt₁.get? i = kt₂.get? i) →
      RffSamplerAppr.get_logits scoreFn sqrtF cosF sinF gaussQ kt₁ query
          sampled =
        RffSamplerAppr.get_logits scoreFn sqrtF cosF sinF gaussQ kt₂ query
          sampled) ∧
    (∀ (table query : List (List ℝ)) (sampled : List (List Nat))
      (lg : List (List ℝ)),
      SphereSamplerAppr.get_logits table query sampled = Except.ok lg →
      lg.length = query.length ∧
      ∀ q, q < query.length →
        (lg.getD q []).length = (sampled.getD q []).length) ∧
    (∀ (gA : List (List ℝ) → List (List ℝ) → List (List Nat) →
        Except SamplerError (List (List ℝ)))
      (table query : List (List ℝ)) (pos : Option (List (List ℝ)))
      (lg : List (List ℝ)) (res : ForwardResult ℝ),
      gA table query (apprNegItems n query.length k g) = Except.ok lg →
      KernelSamplerAppr.forward Real.log gA ⟨n, kind, some table⟩ query k g
        pos = Except.ok res →
      ∀ q, q < lg.length → ∀ s, s < (lg.getD q []).length →
        (res.negProb.getD q []).getD s 0 =
          Real.log ((lg.getD q []).getD s 0)) := by
  refine ⟨?_, ?_, ?_, ?_, ?_, ?_, ?_⟩
  · intro gA table query pos res hres q hq s hs
    obtain ⟨t2, lg, hiv, hga, rfl⟩ := apprForward_ok_inv Real.log gA
      ⟨n, kind, some table⟩ query k g pos res hres
    refine ⟨?_, randint_lt n (g q s) hn⟩
    rw [getD_map_of_lt _ _ q [] [] (by simpa [apprNegItems] using hq)]
    unfold apprNegItems
    rw [getD_range_map _ _ q [] hq]
    rw [getD_map_of_lt _ _ s 0 0 (by simpa using hs)]
    rw [getD_range_map _ _ s 0 hs]
  · intro j hj
    exact randint_uniform_count n j hj
  · intro gA₁ gA₂ t₁ t₂ q₁ q₂ pos₁ pos₂ res₁ res₂ hlen h1 h2
    obtain ⟨u1, lg1, _, _, rfl⟩ := apprForward_ok_inv Real.log gA₁
      ⟨n, kind, some t₁⟩ q₁ k g pos₁ res₁ h1
    obtain ⟨u2, lg2, _, _, rfl⟩ := apprForward_ok_inv Real.log gA₂
      ⟨n, kind, some t₂⟩ q₂ k g pos₂ res₂ h2
    show ((apprNegItems n q₁.length k g).map _) = _
    rw [hlen]
  · intro t₁ t₂ query sampled h
    unfold SphereSamplerAppr.get_logits
    apply mapM_except_congr
    intro q _
    apply mapM_except_congr
    intro i hi
    have hrow : t₁.get? i = t₂.get? i := by
      by_cases hql : q < sampled.length
      · exact h _ (getD_mem sampled q [] hql) i hi
      · rw [getD_of_length_le sampled q [] (Nat.le_of_not_lt hql)] at hi
        exact absurd hi (List.not_mem_nil i)
    rw [hrow]
  · intro scoreFn sqrtF cosF sinF gaussQ kt₁ kt₂ query sampled h
    unfold RffSamplerAppr.get_logits
    apply mapM_except_congr
    intro q _
    apply mapM_except_congr
    intro i hi
    have hrow : kt₁.get? i = kt₂.get? i := by
      by_cases hql : q < sampled.length
      · exact h _ (getD_mem sampled q [] hql) i hi
      · rw [getD_of_length_le sampled q [] (Nat.le_of_not_lt hql)] at hi
        exact absurd hi (List.not_mem_nil i)
    rw [hrow]
  · intro table query sampled lg h
    unfold SphereSamplerAppr.get_logits at h
    obtain ⟨hlen, hrows⟩ := range_mapM_rows_shape h
    refine ⟨hlen, ?_⟩
    intro q hq
    obtain ⟨row, hrow, hrowD⟩ := hrows q hq
    rw [hrowD]
    exact (mapM_except_ok_forall₂ hrow).length_eq.symm
  · intro gA table query pos lg res hga hres q hq s hs
    obtain ⟨t2, lg2, hiv, hga2, rfl⟩ := apprForward_ok_inv Real.log gA
      ⟨n, kind, some table⟩ query k g pos res hres
    have ht2 : t2 = table := by
      have h' : (some table : Option (List (List ℝ))) = some t2 := hiv
      injection h' with h''
      exact h''.symm
    subst ht2
    have hlg2 : lg2 = lg := by
      rw [hga] at hga2
      injection hga2 with h''
      exact h''.symm
    subst hlg2
    rw [getD_map_of_lt _ _ q [] [] hq]
    rw [getD_map_of_lt _ _ s 0 0 hs]

/-- Witness for C2: the uniform-count conjunct evaluated at `n = 2`. -/
theorem C2_witness :
    ((Finset.range 2).filter (fun x => randint 2 x = 0)).card = 1 :=
  (C2_appr_uniform_and_unnormalized 2 1 ScorerKind.innerProduct
    (fun _ _ => 0) (by decide)).2.1 0 (by decide)

/-- C10: in the approximate path every sampled index lies in
`[0, num_items)`; provided the most recent `update` stored a table with at
least `num_items` rows, every index access `item_vec[sampled]`
(`SphereSamplerAppr`) and `kernel_item_vec[sampled]` (`RffSamplerAppr`, on
the cached kernelized table, whose row count equals the updated table's) is
in bounds, so `forward` succeeds and the out-of-bounds error branch is
never taken. -/
theorem C10_appr_indexing_in_bounds {K : Type} [LinearOrderedField K]
    (logF : K → K) (scoreFn : List K → List K → K) (sqrtF cosF sinF : K → K)
    (gaussI gaussQ : Nat → Nat → Nat → K) (n k : Nat) (kind : ScorerKind)
    (embs query : List (List K)) (g : Nat → Nat → Nat)
    (pos : Option (List (List K))) (hn : 0 < n) (hlen : n ≤ embs.length) :
    (∀ row ∈ apprNegItems n query.length k g, ∀ i ∈ row, i < n) ∧
    (∃ res, KernelSamplerAppr.forward logF SphereSamplerAppr.get_logits
        (KernelSampler.update (Sampler.mk0 n kind) embs) query k g pos =
      Except.ok res) ∧
    (∃ res, KernelSamplerAppr.forward logF
        (fun _ qy smp => RffSamplerAppr.get_logits scoreFn sqrtF cosF sinF
          gaussQ
          (RffSamplerAppr.update scoreFn sqrtF cosF sinF gaussI
            (Sampler.mk0 n kind) embs).2 qy smp)
        (RffSamplerAppr.update scoreFn sqrtF cosF sinF gaussI
          (Sampler.mk0 n kind) embs).1 query k g pos =
      Except.ok res) := by
  have hidx : ∀ row ∈ apprNegItems n query.length k g, ∀ i ∈ row, i < n := by
    intro row hrow i hi
    unfold apprNegItems at hrow
    obtain ⟨q, _, rfl⟩ := List.mem_map.mp hrow
    obtain ⟨s, _, rfl⟩ := List.mem_map.mp hi
    exact randint_lt n (g q s) hn
  refine ⟨hidx, ?_, ?_⟩
  · have hok : ∃ lg, SphereSamplerAppr.get_logits embs query
        (apprNegItems n query.length k g) = Except.ok lg := by
      unfold SphereSamplerAppr.get_logits
      apply mapM_except_isOk
      intro q _
      apply mapM_except_isOk
      intro i hi
      have hin : i < embs.length := by
        by_cases hql : q < (apprNegItems n query.length k g).length
        · exact lt_of_lt_of_le
            (hidx _ (getD_mem _ q [] hql) i hi) hlen
        · rw [getD_of_length_le _ q [] (Nat.le_of_not_lt hql)] at hi
          exact absurd hi (List.not_mem_nil i)
      rw [List.get?_eq_getElem?, List.getElem?_eq_getElem hin]
      exact ⟨_, rfl⟩
    obtain ⟨lg, hlg⟩ := hok
    exact ⟨_, apprForward_eq_ok logF _ n kind embs query k g pos lg hlg⟩
  · have hklen : (RffSamplerAppr.update scoreFn sqrtF cosF sinF gaussI
        (Sampler.mk0 n kind) embs).2.length = embs.length := by
      unfold RffSamplerAppr.update
      simp
    have hok : ∃ lg, RffSamplerAppr.get_logits scoreFn sqrtF cosF sinF
        gaussQ (RffSamplerAppr.update scoreFn sqrtF cosF sinF gaussI
          (Sampler.mk0 n kind) embs).2 query
        (apprNegItems n query.length k g) = Except.ok lg := by
      unfold RffSamplerAppr.get_logits
      apply mapM_except_isOk
      intro q _
      apply mapM_except_isOk
      intro i hi
      have hin : i < (RffSamplerAppr.update scoreFn sqrtF cosF sinF gaussI
          (Sampler.mk0 n kind) embs).2.length := by
        rw [hklen]
        by_cases hql : q < (apprNegItems n query.length k g).length
        · exact lt_of_lt_of_le
            (hidx _ (getD_mem _ q [] hql) i hi) hlen
        · rw [getD_of_length_le _ q [] (Nat.le_of_not_lt hql)] at hi
          exact absurd hi (List.not_mem_nil i)
      rw [List.get?_eq_getElem?, List.getElem?_eq_getElem hin]
      exact ⟨_, rfl⟩
    obtain ⟨lg, hlg⟩ := hok
    exact ⟨_, apprForward_eq_ok logF _ n kind embs query k g pos lg hlg⟩

/-- Witness for C10 at a concrete one-item catalog over `ℚ`. -/
theorem C10_witness :
    (∀ row ∈ apprNegItems 1 [[(9 : ℚ)]].length 1 (fun _ _ => 0),
      ∀ i ∈ row, i < 1) ∧
    (∃ res, KernelSamplerAppr.forward (K := ℚ) id
        SphereSamplerAppr.get_logits
        (KernelSampler.update (Sampler.mk0 1 ScorerKind.innerProduct)
          [[5]]) [[9]] 1 (fun _ _ => 0) none = Except.ok res) ∧
    (∃ res, KernelSamplerAppr.forward (K := ℚ) id
        (fun _ qy smp => RffSamplerAppr.get_logits dot id id id
          (fun _ _ _ => 0)
          (RffSamplerAppr.update dot id id id (fun _ _ _ => 0)
            (Sampler.mk0 1 ScorerKind.innerProduct) [[5]]).2 qy smp)
        (RffSamplerAppr.update dot id id id (fun _ _ _ => 0)
          (Sampler.mk0 1 ScorerKind.innerProduct) [[5]]).1
        [[9]] 1 (fun _ _ => 0) none = Except.ok res) :=
  C10_appr_indexing_in_bounds id dot id id id (fun _ _ _ => 0)
    (fun _ _ _ => 0) 1 1 ScorerKind.innerProduct [[5]] [[9]]
    (fun _ _ => 0) none (by decide) (by decide)

theorem length_kernel_vec {K : Type} [LinearOrderedField K]
    (sqrtF cosF sinF : K → K) (temp : K) (R : Nat)
    (gauss : Nat → Nat → K) (v : List K) :
    (RFFSampler.kernel_vec sqrtF cosF sinF temp R gauss v).length = 2 * R := by
  simp [RFFSampler.kernel_vec, rffScores]
  omega

theorem kernel_vec_entry_cos {K : Type} [LinearOrderedField K]
    (sqrtF cosF sinF : K → K) (temp : K) (R : Nat)
    (gauss : Nat → Nat → K) (v : List K) (j : Nat) (hj : j < R) :
    (RFFSampler.kernel_vec sqrtF cosF sinF temp R gauss v).getD j 0 =
      1 / sqrtF ((R : Nat) : K) *
        cosF (dot (l2normalize sqrtF v)
          (rffProjRow sqrtF temp gauss v.length j)) := by
  have hslen : (rffScores dot sqrtF temp R gauss v).length = R := by
    simp [rffScores]
  have hjc : j < ((rffScores dot sqrtF temp R gauss v).map cosF).length := by
    rw [List.length_map, hslen]
    exact hj
  have happ : j < ((rffScores dot sqrtF temp R gauss v).map cosF ++
      (rffScores dot sqrtF temp R gauss v).map sinF).length := by
    rw [List.length_append]
    exact Nat.lt_of_lt_of_le hjc (Nat.le_add_right _ _)
  unfold RFFSampler.kernel_vec
  rw [getD_map_of_lt _ _ j 0 0 happ]
  rw [List.getD_append _ _ 0 j hjc]
  rw [getD_map_of_lt cosF _ j 0 0 (by rw [hslen]; exact hj)]
  unfold rffScores
  rw [getD_range_map _ _ j 0 hj]

theorem kernel_vec_entry_sin {K : Type} [LinearOrderedField K]
    (sqrtF cosF sinF : K → K) (temp : K) (R : Nat)
    (gauss : Nat → Nat → K) (v : List K) (j : Nat) (hj : j < R) :
    (RFFSampler.kernel_vec sqrtF cosF sinF temp R gauss v).getD (R + j) 0 =
      1 / sqrtF ((R : Nat) : K) *
        sinF (dot (l2normalize sqrtF v)
          (rffProjRow sqrtF temp gauss v.length j)) := by
  have hslen : (rffScores dot sqrtF temp R gauss v).length = R := by
    simp [rffScores]
  have hrapp : R + j < ((rffScores dot sqrtF temp R gauss v).map cosF ++
      (rffScores dot sqrtF temp R gauss v).map sinF).length := by
    rw [List.length_append, List.length_map, List.length_map, hslen]
    omega
  unfold RFFSampler.kernel_vec
  rw [getD_map_of_lt _ _ (R + j) 0 0 hrapp]
  rw [List.getD_append_right _ _ 0 (R + j)
    (by rw [List.length_map, hslen]; exact Nat.le_add_right _ _)]
  rw [List.length_map, hslen, Nat.add_sub_cancel_left]
  rw [getD_map_of_lt sinF _ j 0 0 (by rw [hslen]; exact hj)]
  unfold rffScores
  rw [getD_range_map _ _ j 0 hj]

theorem kernel_func_eq_kernel_vec {K : Type} [LinearOrderedField K]
    (sqrtF cosF sinF : K → K) (gauss : Nat → Nat → K) (v : List K) :
    RffSamplerAppr.kernel_func dot sqrtF cosF sinF gauss v =
      RFFSampler.kernel_vec sqrtF cosF sinF
        ((RffSamplerAppr.default_temp : ℚ) : K)
        RffSamplerAppr.default_num_random_features gauss v := rfl

/-- C4: the random-Fourier-feature transform (`RFFSampler.kernel_vec`, and
`RffSamplerAppr.kernel_func` with its defaults) maps an input row of any
width `D ≥ 1` to a row of width exactly `2R`: entry `j < R` is
`(1/sqrt R) * cos` of the projection of the L2-normalized input against the
`j`-th freshly drawn Gaussian row, and entry `R + j` the matching `sin`;
`kernel_func` with the inner-product scorer is the same pipeline with its
default scale and `R = 32`. -/
theorem C4_rff_transform_width {K : Type} [LinearOrderedField K]
    (scoreFn : List K → List K → K) (sqrtF cosF sinF : K → K) (temp : K)
    (R : Nat) (gauss : Nat → Nat → K) (v : List K) (_hD : 1 ≤ v.length) :
    (RFFSampler.kernel_vec sqrtF cosF sinF temp R gauss v).length = 2 * R ∧
    (∀ j, j < R →
      (RFFSampler.kernel_vec sqrtF cosF sinF temp R gauss v).getD j 0 =
        1 / sqrtF ((R : Nat) : K) *
          cosF (dot (l2normalize sqrtF v)
            (rffProjRow sqrtF temp gauss v.length j)) ∧
      (RFFSampler.kernel_vec sqrtF cosF sinF temp R gauss v).getD (R + j)
          0 =
        1 / sqrtF ((R : Nat) : K) *
          sinF (dot (l2normalize sqrtF v)
            (rffProjRow sqrtF temp gauss v.length j))) ∧
    (RffSamplerAppr.kernel_func scoreFn sqrtF cosF sinF gauss v).length =
      2 * RffSamplerAppr.default_num_random_features ∧
    RffSamplerAppr.kernel_func dot sqrtF cosF sinF gauss v =
      RFFSampler.kernel_vec sqrtF cosF sinF
        ((RffSamplerAppr.default_temp : ℚ) : K)
        RffSamplerAppr.default_num_random_features gauss v := by
  refine ⟨length_kernel_vec sqrtF cosF sinF temp R gauss v, ?_, ?_,
    kernel_func_eq_kernel_vec sqrtF cosF sinF gauss v⟩
  · intro j hj
    exact ⟨kernel_vec_entry_cos sqrtF cosF sinF temp R gauss v j hj,
      kernel_vec_entry_sin sqrtF cosF sinF temp R gauss v j hj⟩
  · simp [RffSamplerAppr.kernel_func, rffScores]
    omega

/-- Witness for C4 at a concrete two-dimensional input over `ℚ`. -/
theorem C4_witness :
    (RFFSampler.kernel_vec (K := ℚ) id id id 4 3 (fun _ _ => 1)
      [1, 2]).length = 2 * 3 ∧
    (RffSamplerAppr.kernel_func (K := ℚ) dot id id id (fun _ _ => 1)
      [1, 2]).length = 2 * RffSamplerAppr.default_num_random_features :=
  ⟨(C4_rff_transform_width dot id id id 4 3 (fun _ _ => 1) [1, 2]
      (by decide)).1,
   (C4_rff_transform_width dot id id id 4 3 (fun _ _ => 1) [1, 2]
      (by decide)).2.2.1⟩

/-- C8 fails as stated: `RffSamplerAppr.kernel_func` generates its random
features with its default scale `temp = 5.0` — the temperature value, not
the smaller `ν = 4` — so on a concrete input its output differs from the
`ν`-scaled transform that `RFFSampler` uses. -/
theorem C8_cex_appr_scale_not_nu :
    RffSamplerAppr.default_temp ≠ RFFSampler.nu ∧
    (RffSamplerAppr.kernel_func (K := ℚ) dot id id id (fun _ _ => 1)
        [1]).getD 0 0 ≠
      (RFFSampler.kernel_vec (K := ℚ) id id id RFFSampler.nu
        RFFSampler.num_random_features (fun _ _ => 1) [1]).getD 0 0 := by
  constructor
  · decide
  · have hmax : max ((1 : ℚ) * 1 + 0) (1 / 10 ^ 12) = 1 := by
      rw [max_eq_left (by norm_num)]
      norm_num
    rw [kernel_func_eq_kernel_vec]
    rw [kernel_vec_entry_cos id id id
      (Rat.cast RffSamplerAppr.default_temp : ℚ)
      RffSamplerAppr.default_num_random_features (fun _ _ => 1) [1] 0
      (by norm_num [RffSamplerAppr.default_num_random_features])]
    rw [kernel_vec_entry_cos id id id RFFSampler.nu
      RFFSampler.num_random_features (fun _ _ => 1) [1] 0
      (by norm_num [RFFSampler.num_random_features])]
    norm_num [dot, l2normalize, rffProjRow, hmax, Rat.cast_id,
      List.range_succ, List.range_zero, RffSamplerAppr.default_temp,
      RFFSampler.nu,
      RffSamplerAppr.default_num_random_features,
      RFFSampler.num_random_features]

/-- C8 (amended): `RFFSampler` generates random features with the scale
`ν = 4` (distinct from its softmax temperature `τ = 5`, with `ν < τ`) and
`R = 32`, applying the identically parameterized transform to the item rows
at `update` and to the query rows at `get_logits`, whose logits are inner
products of the two `ν`-scaled feature vectors; `RffSamplerAppr` instead
uses its `kernel_func` defaults — scale `5.0` (the temperature value, not
`ν`) and `R = 32` — but does apply that same `kernel_func` both to the item
rows cached at `update` and to the query rows inside `get_logits`. -/
theorem C8_amended_feature_scales {K : Type} [LinearOrderedField K]
    (scoreFn : List K → List K → K) (sqrtF cosF sinF : K → K)
    (gaussI gaussQ : Nat → Nat → Nat → K) (st : SamplerState K)
    (embs query : List (List K)) :
    (RFFSampler.nu = 4 ∧ RFFSampler.temperature = 5 ∧
      RFFSampler.nu < RFFSampler.temperature ∧
      RFFSampler.num_random_features = 32 ∧
      RffSamplerAppr.default_temp = 5 ∧
      RffSamplerAppr.default_num_random_features = 32 ∧
      RffSamplerAppr.default_temp ≠ RFFSampler.nu) ∧
    (∀ q, q < query.length → ∀ i, i < embs.length → ∀ tbl,
      (RFFSampler.update sqrtF cosF sinF gaussI st embs).item_vec =
        some tbl →
      ((RFFSampler.get_logits sqrtF cosF sinF gaussQ tbl query).getD q
          []).getD i 0 =
        dot (RFFSampler.kernel_vec sqrtF cosF sinF
            ((RFFSampler.nu : ℚ) : K) RFFSampler.num_random_features
            (gaussQ q) (query.getD q []))
          (RFFSampler.kernel_vec sqrtF cosF sinF
            ((RFFSampler.nu : ℚ) : K) RFFSampler.num_random_features
            (gaussI i) (embs.getD i []))) ∧
    (∀ i, i < embs.length →
      (RffSamplerAppr.update scoreFn sqrtF cosF sinF gaussI st
          embs).2.getD i [] =
        RffSamplerAppr.kernel_func scoreFn sqrtF cosF sinF (gaussI i)
          (embs.getD i [])) ∧
    (∀ (kt : List (List K)) (sampled : List (List Nat)),
      (∀ row ∈ sampled, ∀ i ∈ row, i < kt.length) →
      RffSamplerAppr.get_logits scoreFn sqrtF cosF sinF gaussQ kt query
          sampled =
        Except.ok ((List.range query.length).map
          (fun q => (sampled.getD q []).map
            (fun i => scoreFn
              (RffSamplerAppr.kernel_func scoreFn sqrtF cosF sinF
                (gaussQ q) (query.getD q []))
              (kt.getD i []))))) := by
  refine ⟨⟨rfl, rfl, by norm_num [RFFSampler.nu, RFFSampler.temperature],
    rfl, rfl, rfl, by decide⟩, ?_, ?_, ?_⟩
  · intro q hq i hi tbl htbl
    have htbl2 : tbl = (List.range embs.length).map
        (fun i2 => RFFSampler.kernel_vec sqrtF cosF sinF
          ((RFFSampler.nu : ℚ) : K) RFFSampler.num_random_features
          (gaussI i2) (embs.getD i2 [])) := by
      unfold RFFSampler.update at htbl
      injection htbl with h'
      exact h'.symm
    subst htbl2
    unfold RFFSampler.get_logits
    rw [getD_range_map _ _ q [] hq]
    rw [getD_map_of_lt _ _ i 0 [] (by simpa using hi)]
    rw [getD_range_map _ _ i [] hi]
  · intro i hi
    unfold RffSamplerAppr.update
    rw [getD_range_map _ _ i [] hi]
  · intro kt sampled hbnd
    unfold RffSamplerAppr.get_logits
    apply mapM_except_ok_map
    intro q _
    apply mapM_except_ok_map
    intro i hi
    have hin : i < kt.length := by
      by_cases hql : q < sampled.length
      · exact hbnd _ (getD_mem sampled q [] hql) i hi
      · rw [getD_of_length_le sampled q [] (Nat.le_of_not_lt hql)] at hi
        exact absurd hi (List.not_mem_nil i)
    rw [List.get?_eq_getElem?, List.getElem?_eq_getElem hin]
    rw [List.getD_eq_getElem kt [] hin]

/-- Witness for C8's amended theorem: the cached item row of a concrete
`RffSamplerAppr.update` equals `kernel_func` of the stored row. -/
theorem C8_witness :
    (RffSamplerAppr.update (K := ℚ) dot id id id (fun _ _ _ => 1)
        (Sampler.mk0 1 ScorerKind.innerProduct) [[5]]).2.getD 0 [] =
      RffSamplerAppr.kernel_func dot id id id ((fun _ _ _ => (1 : ℚ)) 0)
        ([[(5 : ℚ)]].getD 0 []) :=
  (C8_amended_feature_scales dot id id id (fun _ _ _ => 1)
    (fun _ _ _ => 1) (Sampler.mk0 1 ScorerKind.innerProduct) [[5]]
    []).2.2.1 0 (by decide)
